import Mathlib

/-!
Verification development for the freehand drawing tool's streaming pipeline
(turn detection, line fitting, curve fitting), shallow-embedded from the
Python sources under freehandTool/.  Integer device points are embedded as
pairs of `Int`, real-valued working points as pairs of `ℚ`, and Python
exceptions as an explicit error type threaded through `Except`.
-/

/- Batteries marks the rational arithmetic operations irreducible, which
blocks evaluation of the embedding's concrete runs; restore the default
reducibility locally. -/
attribute [local semireducible] Rat.add Rat.sub Rat.mul Rat.inv

/-- Error conditions the Python code can raise while processing a stroke. -/
inductive CodeErr where
  /-- FreehandNullSegmentError from Segment.__init__ (coincident endpoints). -/
  | nullSegment
  /-- AttributeError from using the uninitialized (None) cached endpoint. -/
  | noneType
  /-- A failing Python assert (or projecting a position off the known axis). -/
  | assertionFailed
  /-- Python RecursionError (detector resetting into itself endlessly). -/
  | recursionLimit
deriving DecidableEq

/-- Integer-valued point in device coordinates (type/pointerPoint.py). -/
structure PointerPoint where
  x : Int
  y : Int
deriving DecidableEq

/-- Vector cross product, PointerPoint.crossProduct. -/
def PointerPoint.crossProduct (self other : PointerPoint) : Int :=
  self.x * other.y - self.y * other.x

instance : Sub PointerPoint where
  sub a b := ⟨a.x - b.x, a.y - b.y⟩

/-- Real-valued point used by the curve generator (type/freehandPoint.py). -/
structure FreehandPoint where
  x : ℚ
  y : ℚ
deriving DecidableEq

/-- Python sign() from freehandPoint.py. -/
def sign (x : ℚ) : ℚ :=
  if x > 0 then 1 else if x < 0 then -1 else 0

/-- FreehandPoint.interval: point fractionally along the line from self to other. -/
def FreehandPoint.interval (self other : FreehandPoint) (fraction : ℚ) : FreehandPoint :=
  ⟨self.x + fraction * (other.x - self.x), self.y + fraction * (other.y - self.y)⟩

/-- FreehandPoint.cardinalDirectionLeft90: vector 90 degrees counterclockwise
from other-self, clamped to one of eight cardinal directions. -/
def FreehandPoint.cardinalDirectionLeft90 (self other : FreehandPoint) : FreehandPoint :=
  ⟨-(sign (other.y - self.y)), sign (other.x - self.x)⟩

/-- The device-to-scene map used by the curve generator.  The spec places the
actual device/display transform outside the core, so the embedding uses the
canonical inclusion of integer device points into the real-valued plane. -/
def mapFromDeviceToScene (p : PointerPoint) : FreehandPoint :=
  ⟨(p.x : ℚ), (p.y : ℚ)⟩

/-- Integer straight line between two PointerPoints (type/pathLine.py). -/
structure PathLine where
  p1 : PointerPoint
  p2 : PointerPoint
deriving DecidableEq

/-- PathLine.nullPathLine: zero length PathLine at a point. -/
def PathLine.nullPathLine (point : PointerPoint) : PathLine := ⟨point, point⟩

/-- PathLine.isNullPathLine: dx == 0 and dy == 0. -/
def PathLine.isNullPathLine (l : PathLine) : Bool :=
  l.p2.x - l.p1.x = 0 ∧ l.p2.y - l.p1.y = 0

/-- A Segment's four control points (segmentString/segment.py): start anchor,
two direction control points, end anchor. -/
structure Segment where
  c0 : FreehandPoint
  c1 : FreehandPoint
  c2 : FreehandPoint
  c3 : FreehandPoint
deriving DecidableEq

/-- LineSegment constructor: fails with FreehandNullSegmentError when
startPoint == endPoint, else both direction points are the midpoint. -/
def LineSegment (startPoint endPoint : FreehandPoint) : Except CodeErr Segment :=
  if startPoint = endPoint then .error .nullSegment
  else .ok ⟨startPoint, startPoint.interval endPoint (1/2),
            startPoint.interval endPoint (1/2), endPoint⟩

/-- CurveSegment constructor: fails with FreehandNullSegmentError when
startPoint == endPoint. -/
def CurveSegment (startPoint controlPoint1 controlPoint2 endPoint : FreehandPoint) :
    Except CodeErr Segment :=
  if startPoint = endPoint then .error .nullSegment
  else .ok ⟨startPoint, controlPoint1, controlPoint2, endPoint⟩

/-- Two-slot rolling history (generator/utils/history.py). -/
structure History (α : Type) where
  start : α
  «end» : α
deriving DecidableEq

/-- History.collapse: both slots the same new state. -/
def History.collapse {α : Type} (newState : α) : History α := ⟨newState, newState⟩

/-- History.updateEnd. -/
def History.updateEnd {α : Type} (h : History α) (newState : α) : History α :=
  ⟨h.start, newState⟩

/-- History.roll: start := end. -/
def History.roll {α : Type} (h : History α) : History α := ⟨h.«end», h.«end»⟩

/-- History.isCollapsed: start == end. -/
def History.isCollapsed {α : Type} [DecidableEq α] (h : History α) : Bool :=
  h.start = h.«end»

/-! ## Curve generator (generator/curveGenerator.py) -/

/-- ddenom, potrace's denominator helper. -/
def ddenom (p0 p1 : FreehandPoint) : ℚ :=
  let r := p0.cardinalDirectionLeft90 p1
  r.y * (p1.x - p0.x) - r.x * (p1.y - p0.y)

/-- areaOfParallelogram: cross product of p1-p0 and p2-p0. -/
def areaOfParallelogram (p0 p1 p2 : FreehandPoint) : ℚ :=
  (p1.x - p0.x) * (p2.y - p0.y) - (p2.x - p0.x) * (p1.y - p0.y)

/-- clampAlpha from curveGenerator.py. -/
def clampAlpha (alpha : ℚ) : ℚ :=
  if alpha < 11/20 then 11/20 else if alpha > 1 then 1 else alpha

/-- ALPHAMAX = 1.2, the cusp threshold. -/
def ALPHAMAX : ℚ := 6/5

/-- One batch passed to the external sink: the segment list and the
per-segment cuspness flags handed to appendSegments. -/
structure Batch where
  segments : List Segment
  cuspness : List Bool
deriving DecidableEq

/-- segmentsForCusp: two straight segments through the cusp point, catching
FreehandNullSegmentError per candidate segment and omitting only the
degenerate one.  The Python code reads self.lastEndPointGenerated, which is
None until a first batch was generated; constructing a LineSegment from None
crashes (AttributeError), modelled as the noneType error. -/
def segmentsForCusp (lastEndPointGenerated : Option FreehandPoint)
    (cuspPoint endPoint : FreehandPoint) :
    Except CodeErr (List Segment × FreehandPoint × List Bool) :=
  match lastEndPointGenerated with
  | none => .error .noneType
  | some lastEnd =>
    match LineSegment lastEnd cuspPoint with
    | .error _ =>
      match LineSegment cuspPoint endPoint with
      | .error _ => .ok ([], endPoint, [])
      | .ok secondSegment => .ok ([secondSegment], endPoint, [false])
    | .ok firstSegment =>
      match LineSegment cuspPoint endPoint with
      | .error _ => .ok ([firstSegment], endPoint, [false])
      | .ok secondSegment => .ok ([firstSegment, secondSegment], endPoint, [true, false])

/-- segmentsFromLineMidToMid: fit between the midpoints of two abutting
PathLines, deciding cusp (alpha > ALPHAMAX) versus one smooth cubic.  The
smooth branch's CurveSegment construction is not guarded in the source, so
its failure is propagated. -/
def segmentsFromLineMidToMid (lastEndPointGenerated : Option FreehandPoint)
    (line1 line2 : PathLine) :
    Except CodeErr (List Segment × FreehandPoint × List Bool) :=
  let point1 := mapFromDeviceToScene line1.p1
  let point2 := mapFromDeviceToScene line1.p2
  let point3 := mapFromDeviceToScene line2.p2
  let midpoint1 := point2.interval point1 (1/2)
  let midpoint2 := point3.interval point2 (1/2)
  let denom := ddenom point1 point3
  let alpha : ℚ :=
    if denom ≠ 0 then
      let dd := |areaOfParallelogram point1 point2 point3 / denom|
      if dd > 1 then (1 - 1/dd) / (3/4) else 0
    else 4/3
  if alpha > ALPHAMAX then
    segmentsForCusp lastEndPointGenerated point2 midpoint2
  else
    let alpha' := clampAlpha alpha
    match CurveSegment midpoint1 (point1.interval point2 (1/2 + 1/2 * alpha'))
        (point3.interval point2 (1/2 + 1/2 * alpha')) midpoint2 with
    | .error e => .error e
    | .ok seg => .ok ([seg], midpoint2, [false])

/-- segmentsFromLineMidToEnd: the mid-to-mid fit followed by one extra
straight segment to the end of line2.  The trailing LineSegment construction
is not guarded in the source, so its failure is propagated. -/
def segmentsFromLineMidToEnd (lastEndPointGenerated : Option FreehandPoint)
    (line1 line2 : PathLine) :
    Except CodeErr (List Segment × FreehandPoint × List Bool) :=
  match segmentsFromLineMidToMid lastEndPointGenerated line1 line2 with
  | .error e => .error e
  | .ok (midToMidsegments, endOfMidToMid, cuspness) =>
    let finalEndPoint := mapFromDeviceToScene line2.p2
    match LineSegment endOfMidToMid finalEndPoint with
    | .error e => .error e
    | .ok midToEnd => .ok (midToMidsegments ++ [midToEnd], finalEndPoint, cuspness ++ [true])

/-- segmentsFromLineEndToEnd: single straight segment from end of line1 to
end of line2, cuspness [True]. -/
def segmentsFromLineEndToEnd (line1 line2 : PathLine) :
    Except CodeErr (List Segment × FreehandPoint × List Bool) :=
  let startPoint := mapFromDeviceToScene line1.p2
  let endPoint := mapFromDeviceToScene line2.p2
  match LineSegment startPoint endPoint with
  | .error e => .error e
  | .ok segment => .ok ([segment], endPoint, [true])

/-- The curve generator's per-stroke state: the History of PathLines (only
its end slot is ever read) and the cached last generated path end point,
which is None until the first batch is emitted. -/
structure CurveGenState where
  historyEnd : PathLine
  lastEndPointGenerated : Option FreehandPoint
deriving DecidableEq

/-- One send() into CurveGenerator: dispatch on the forced flag and on
whether the pending history line is null, emit at most one Batch, and update
history and the cached end point exactly as the source does. -/
def curveGenStep (s : CurveGenState) (newPathLine : PathLine) (isLineForced : Bool) :
    Except CodeErr (CurveGenState × Option Batch) :=
  if isLineForced then
    if s.historyEnd.isNullPathLine then
      if newPathLine.isNullPathLine then
        .ok (s, none)
      else
        match segmentsFromLineEndToEnd s.historyEnd newPathLine with
        | .error e => .error e
        | .ok (segments, pathEndPoint, cuspness) =>
          .ok ({ historyEnd := PathLine.nullPathLine newPathLine.p2,
                 lastEndPointGenerated := some pathEndPoint },
               some ⟨segments, cuspness⟩)
    else
      match segmentsFromLineMidToEnd s.lastEndPointGenerated s.historyEnd newPathLine with
      | .error e => .error e
      | .ok (segments, pathEndPoint, cuspness) =>
        .ok ({ historyEnd := PathLine.nullPathLine newPathLine.p2,
               lastEndPointGenerated := some pathEndPoint },
             some ⟨segments, cuspness⟩)
  else
    match segmentsFromLineMidToMid s.lastEndPointGenerated s.historyEnd newPathLine with
    | .error e => .error e
    | .ok (segments, pathEndPoint, cuspness) =>
      .ok ({ historyEnd := newPathLine, lastEndPointGenerated := some pathEndPoint },
           some ⟨segments, cuspness⟩)

/-- flushCurveGenerator: closing the curve generator asserts that the line
generator's terminating flush left a null PathLine pending; no output. -/
def flushCurveGenerator (s : CurveGenState) : Except CodeErr Unit :=
  if s.historyEnd.isNullPathLine then .ok () else .error .assertionFailed

/-! ## Constraint funnel (generator/utils/constraints.py) -/

/-- The pair of constraint vectors defining the funnel. -/
structure Constraints where
  constraintLeft : PointerPoint
  constraintRight : PointerPoint
deriving DecidableEq

/-- Constraints.__init__: both vectors null ("unconstrained"). -/
def Constraints.init : Constraints := ⟨⟨0, 0⟩, ⟨0, 0⟩⟩

/-- Constraints.isViolatedBy. -/
def Constraints.isViolatedBy (c : Constraints) (vector : PointerPoint) : Bool :=
  c.constraintLeft.crossProduct vector < 0 ∨ c.constraintRight.crossProduct vector > 0

/-- Constraints.update: widen each side to the ±1-nudged offset of v when
doing so does not shrink the funnel. -/
def Constraints.update (c : Constraints) (v : PointerPoint) : Constraints :=
  let offsetL : PointerPoint :=
    ⟨v.x + (if v.y ≥ 0 ∧ (v.y > 0 ∨ v.x < 0) then 1 else -1),
     v.y + (if v.x ≤ 0 ∧ (v.x < 0 ∨ v.y < 0) then 1 else -1)⟩
  let left := if c.constraintLeft.crossProduct offsetL ≥ 0 then offsetL else c.constraintLeft
  let offsetR : PointerPoint :=
    ⟨v.x + (if v.y ≤ 0 ∧ (v.y < 0 ∨ v.x < 0) then 1 else -1),
     v.y + (if v.x ≥ 0 ∧ (v.x > 0 ∨ v.y < 0) then 1 else -1)⟩
  let right := if c.constraintRight.crossProduct offsetR ≤ 0 then offsetR else c.constraintRight
  ⟨left, right⟩

/-! ## Line generator (generator/lineGenerator.py) -/

/-- The line generator's per-stroke state: the History of turns and the
constraint funnel. -/
structure LineGenState where
  turnHistory : History PointerPoint
  constraints : Constraints
deriving DecidableEq

/-- _sendForcedLine: send a (line, True) pair downstream. -/
def sendForcedLine (line : PathLine) : List (PathLine × Bool) := [(line, true)]

/-- _interpolateConstraintViolating: null interpolation, the PathLine to the
last satisfying turn. -/
def interpolateConstraintViolating (history : History PointerPoint) : PathLine :=
  ⟨history.start, history.«end»⟩

/-- One send() into LineGenerator: forced turns flush via
_forcedLineFromPath, non-forced turns run the constraint-funnel fit from
_lineFromPath; returns the new state and the (PathLine, isForced) pairs sent
to the curve generator. -/
def lineGenStep (s : LineGenState) (newTurn : PointerPoint) (isForced : Bool) :
    LineGenState × List (PathLine × Bool) :=
  if isForced then
    -- _flushUpToNewTurn / _forcedLineFromPath: reset constraints, emit the
    -- forced line (null when the history start equals the new turn),
    -- collapse the history onto the new turn.
    let forcedLine :=
      if s.turnHistory.start = newTurn then PathLine.nullPathLine newTurn
      else ⟨s.turnHistory.start, newTurn⟩
    ({ turnHistory := History.collapse newTurn, constraints := Constraints.init },
     sendForcedLine forcedLine)
  else
    let vectorViaAllTurns := newTurn - s.turnHistory.start
    if s.constraints.isViolatedBy vectorViaAllTurns then
      let line := interpolateConstraintViolating s.turnHistory
      ({ turnHistory := (s.turnHistory.roll).updateEnd newTurn, constraints := Constraints.init },
       [(line, false)])
    else
      ({ turnHistory := s.turnHistory.updateEnd newTurn,
         constraints := s.constraints.update vectorViaAllTurns }, [])

/-- flushLineGenerator: on close, send exactly one forcing line; the
history line when turns are pending, else a null line at the history end. -/
def flushLineGenerator (s : LineGenState) : List (PathLine × Bool) :=
  if ¬ s.turnHistory.isCollapsed then
    sendForcedLine ⟨s.turnHistory.start, s.turnHistory.«end»⟩
  else
    sendForcedLine (PathLine.nullPathLine s.turnHistory.«end»)

/-! ## Axis and reversal detector (generator/utils/) -/

/-- orthogonal.py: areHorizontallyAligned. -/
def areHorizontallyAligned (position1 position2 : PointerPoint) : Bool :=
  position1.y = position2.y

/-- orthogonal.py: areVerticallyAligned. -/
def areVerticallyAligned (position1 position2 : PointerPoint) : Bool :=
  position1.x = position2.x

/-- orthogonal.py: areOrthogonal, both positions on any same axis. -/
def areOrthogonal (position1 position2 : PointerPoint) : Bool :=
  areHorizontallyAligned position1 position2 ∨ areVerticallyAligned position1 position2

/-- Axis orientation: horizontal or vertical. -/
inductive AxisOrientation where
  | H
  | V
deriving DecidableEq

/-- Modelled from the spec: the axis tracker object used by the reversal
detector.  The detector imports a module-level `axis` instance whose module
is not shipped under src/ (utils/axis.py defines a class with a different
surface: isOrientationKnown/determineOrientation/startPosition); the state
and operations follow spec §4.1 and the detector's call sites. -/
structure AxisS where
  orientation : Option AxisOrientation
  startPosition : PointerPoint
deriving DecidableEq

/-- Modelled from the spec: axis.reset discards orientation, keeps start. -/
def AxisS.reset (startPosition : PointerPoint) : AxisS := ⟨none, startPosition⟩

/-- Modelled from the spec: whether the orientation is known. -/
def AxisS.isKnown (a : AxisS) : Bool := a.orientation.isSome

/-- Modelled from the spec: determine orientation from a position aligned
with the start; a position equal to the start leaves it undetermined
("If startPosition == newPosition, still not axis.isKnown()"). -/
def AxisS.determine (a : AxisS) (position : PointerPoint) : AxisS :=
  if position = a.startPosition then a
  else if areHorizontallyAligned a.startPosition position then ⟨some .H, a.startPosition⟩
  else if areVerticallyAligned a.startPosition position then ⟨some .V, a.startPosition⟩
  else a

/-- Modelled from the spec: does the position share either coordinate with
the axis start. -/
def AxisS.isAnySameAxis (a : AxisS) (position : PointerPoint) : Bool :=
  areOrthogonal a.startPosition position

/-- Modelled from the spec: diagonal to next start, sharing neither
coordinate. -/
def AxisS.isDiagonalToStart (a : AxisS) (position : PointerPoint) : Bool :=
  ¬ areOrthogonal a.startPosition position

/-- Modelled from the spec: whether the known orientation is vertical. -/
def AxisS.isVertical (a : AxisS) : Bool := a.orientation = some .V

/-- Modelled from the spec: the position's value along the known axis; the
source asserts the position lies exactly on the axis and that the
orientation is known, so off-axis projection fails. -/
def AxisS.onAxisValue (a : AxisS) (position : PointerPoint) : Except CodeErr Int :=
  match a.orientation with
  | some .H => if position.y = a.startPosition.y then .ok position.x else .error .assertionFailed
  | some .V => if position.x = a.startPosition.x then .ok position.y else .error .assertionFailed
  | none => .error .assertionFailed

/-- The reversal detector's state (generator/utils/reversalDetector.py):
axis, the growing limit pair, which bound is growing, and the extreme
position. -/
structure RDState where
  axis : AxisS
  lowerLimit : Option Int
  upperLimit : Option Int
  isGrowingLower : Option Bool
  extremePosition : PointerPoint
deriving DecidableEq

/-- ReversalDetector.reset: reset growth parameters and the axis, keep the
new start as extreme. -/
def RDState.reset (newStartPosition : PointerPoint) : RDState :=
  ⟨AxisS.reset newStartPosition, none, none, none, newStartPosition⟩

/-- ReversalDetector.isDiagonal, delegated to the axis. -/
def RDState.isDiagonal (d : RDState) (newPosition : PointerPoint) : Bool :=
  d.axis.isDiagonalToStart newPosition

/-- ReversalDetector._setInitialLimits: order the axis-start's and the
position's on-axis values into the limit pair. -/
def RDState.setInitialLimits (d : RDState) (position : PointerPoint) : RDState :=
  if d.axis.isVertical then
    if d.axis.startPosition.y < position.y then
      { d with lowerLimit := some d.axis.startPosition.y, upperLimit := some position.y }
    else
      { d with lowerLimit := some position.y, upperLimit := some d.axis.startPosition.y }
  else
    if d.axis.startPosition.x < position.x then
      { d with lowerLimit := some d.axis.startPosition.x, upperLimit := some position.x }
    else
      { d with lowerLimit := some position.x, upperLimit := some d.axis.startPosition.x }

/-- ReversalDetector._isReversal: Python's `if self.isGrowingLower:` treats
None and False alike, checking against the upper bound. -/
def isReversalCheck (isGrowingLower : Option Bool) (lowerLimit upperLimit value : Int) : Bool :=
  if isGrowingLower = some true then value > lowerLimit + 1 else value < upperLimit - 1

/-- ReversalDetector._expandLimits. -/
def RDState.expandLimits (d : RDState) (value : Int) (newPosition : PointerPoint) : RDState :=
  match d.lowerLimit, d.upperLimit with
  | some lo, some hi =>
    if value < lo then
      { d with lowerLimit := some value, isGrowingLower := some true,
               extremePosition := newPosition }
    else if value > hi then
      { d with upperLimit := some value, isGrowingLower := some false,
               extremePosition := newPosition }
    else d
  | _, _ => d

/-- ReversalDetector.detect, with explicit fuel standing for Python's
recursion limit (detect and _resetAfterReversal are mutually recursive in
the source; exhausting the fuel is a RecursionError). -/
def RDState.detect : Nat → RDState → PointerPoint → Except CodeErr (Option PointerPoint × RDState)
  | 0, _, _ => .error .recursionLimit
  | Nat.succ fuel, d0, newPosition =>
    if ¬ d0.axis.isAnySameAxis newPosition then .error .assertionFailed
    else
      let d :=
        if ¬ d0.axis.isKnown then
          let ax := d0.axis.determine newPosition
          if ax.isKnown then RDState.setInitialLimits { d0 with axis := ax } newPosition
          else { d0 with axis := ax }
        else d0
      if ¬ d.axis.isKnown then .ok (none, d)
      else
        match d.axis.onAxisValue newPosition with
        | .error e => .error e
        | .ok value =>
          match d.lowerLimit, d.upperLimit with
          | some lo, some hi =>
            -- _adjustLimitsOrReverse: assert size > 1, no reversal at size 2,
            -- then expand the limits regardless.
            if hi - lo + 1 ≤ 1 then .error .assertionFailed
            else
              let isRev := if hi - lo + 1 = 2 then false
                           else isReversalCheck d.isGrowingLower lo hi value
              let d' := d.expandLimits value newPosition
              if isRev then
                -- result is read after _expandLimits possibly moved the
                -- extreme; _resetAfterReversal then re-runs detect and
                -- discards that inner result.
                let result := d'.extremePosition
                match RDState.detect fuel (RDState.reset d'.extremePosition) newPosition with
                | .error e => .error e
                | .ok (_, d'') => .ok (some result, d'')
              else .ok (none, d')
          | _, _ => .error .assertionFailed

/-- The recursion budget used per call into detect (Python's recursion limit;
the source's nesting either terminates within two frames or repeats one
state forever). -/
def detectFuel : Nat := 8

/-! ## Turn generator (generator/turnGenerator.py) -/

/-- The turn generator's per-stroke state: its position History and the
reversal detector. -/
structure TurnGenState where
  history : History PointerPoint
  reversalDetector : RDState
deriving DecidableEq

/-- detectTurn: a position diagonal to the detector's start is itself a turn
(and resets the detector); otherwise delegate to reversal detection. -/
def detectTurn (d : RDState) (position : PointerPoint) :
    Except CodeErr (Option PointerPoint × RDState) :=
  if d.isDiagonal position then .ok (some position, RDState.reset position)
  else RDState.detect detectFuel d position

/-- Python truthiness of the elapsed-milliseconds value that the turn
generator sends as the second element of its (turn, positionElapsedTime)
pair and that the line generator reads as its isForced flag. -/
def pythonTruthy (n : Nat) : Bool := n ≠ 0

/-- The pair the turn generator pushes downstream for one received position:
(turn, positionElapsedTime) when a turn is recognized, nothing otherwise. -/
def turnGenEmission (s : TurnGenState) (newPosition : PointerPoint)
    (positionElapsedTime : Nat) :
    Except CodeErr (Option (PointerPoint × Nat) × RDState) :=
  match detectTurn s.reversalDetector newPosition with
  | .error e => .error e
  | .ok (none, d') => .ok (none, d')
  | .ok (some turn, d') => .ok (some (turn, positionElapsedTime), d')

/-! ## The assembled pipeline (freehand.py) -/

/-- Per-stroke pipeline state: the three stages created by _initFilterPipe. -/
structure PipelineState where
  turnGen : TurnGenState
  lineGen : LineGenState
  curveGen : CurveGenState
deriving DecidableEq

/-- _initFilterPipe: create all three stages at the starting position; the
curve generator is seeded with a null PathLine there and the cached last
generated end point is still None (_resetState). -/
def initPipeline (startPosition : PointerPoint) : PipelineState :=
  { turnGen := { history := History.collapse startPosition,
                 reversalDetector := RDState.reset startPosition },
    lineGen := { turnHistory := History.collapse startPosition,
                 constraints := Constraints.init },
    curveGen := { historyEnd := PathLine.nullPathLine startPosition,
                  lastEndPointGenerated := none } }

/-- Feed a sequence of (PathLine, isForced) sends into the curve generator,
collecting the emitted batches; an exception stops the stroke and is
reported after the batches already emitted. -/
def feedCurve (s : CurveGenState) :
    List (PathLine × Bool) → CurveGenState × List Batch × Option CodeErr
  | [] => (s, [], none)
  | (line, isForced) :: rest =>
    match curveGenStep s line isForced with
    | .error e => (s, [], some e)
    | .ok (s', b) =>
      match feedCurve s' rest with
      | (s'', bs, err) => (s'', b.toList ++ bs, err)

/-- Push one (turn, isForced) pair into the line generator and relay its
output lines into the curve generator. -/
def sendTurnToLine (s : PipelineState) (turn : PointerPoint) (isForced : Bool) :
    PipelineState × List Batch × Option CodeErr :=
  let (ls', lines) := lineGenStep s.lineGen turn isForced
  match feedCurve s.curveGen lines with
  | (cs', batches, err) =>
    ({ s with lineGen := ls', curveGen := cs' }, batches, err)

/-- One pointer sample pushed into the turn generator (TurnGenerator's
receive loop): a recognized turn is sent to the line generator together with
the elapsed milliseconds, whose Python truthiness the line generator reads
as its isForced flag; the turn generator's history collapses onto the
position on a turn and otherwise absorbs it. -/
def samplePipeline (s : PipelineState) (position : PointerPoint)
    (positionElapsedTime : Nat) : PipelineState × List Batch × Option CodeErr :=
  match turnGenEmission s.turnGen position positionElapsedTime with
  | .error e => (s, [], some e)
  | .ok (none, d') =>
    ({ s with turnGen := { history := s.turnGen.history.updateEnd position,
                           reversalDetector := d' } }, [], none)
  | .ok (some (turn, elapsed), d') =>
    let s' := { s with turnGen := { history := History.collapse position,
                                    reversalDetector := d' } }
    sendTurnToLine s' turn (pythonTruthy elapsed)

/-- flushTurnGenerator: on close, when the history holds an unsent trailing
position, send it as a turn with elapsed time 0. -/
def flushTurnGenerator (s : PipelineState) : PipelineState × List Batch × Option CodeErr :=
  if ¬ s.turnGen.history.isCollapsed then
    sendTurnToLine s s.turnGen.history.«end» (pythonTruthy 0)
  else (s, [], none)

/-- _closeFilterPipe: close the three generators in pipeline order; each
close may push one final value downstream, and an exception aborts the
remaining closes. -/
def closePipeline (s : PipelineState) : List Batch × Option CodeErr :=
  match flushTurnGenerator s with
  | (_, bs, some e) => (bs, some e)
  | (s1, bs1, none) =>
    match feedCurve s1.curveGen (flushLineGenerator s1.lineGen) with
    | (_, bs2, some e) => (bs1 ++ bs2, some e)
    | (cs, bs2, none) =>
      match flushCurveGenerator cs with
      | .error e => (bs1 ++ bs2, some e)
      | .ok _ => (bs1 ++ bs2, none)

/-- Process a list of (position, elapsed-milliseconds) samples. -/
def runSamples (s : PipelineState) :
    List (PointerPoint × Nat) → PipelineState × List Batch × Option CodeErr
  | [] => (s, [], none)
  | (p, t) :: rest =>
    match samplePipeline s p t with
    | (s', bs, some e) => (s', bs, some e)
    | (s', bs, none) =>
      match runSamples s' rest with
      | (s'', bs', err) => (s'', bs ++ bs', err)

/-- One whole stroke: initialize the pipeline at the press position, feed
every move sample, then close the pipe; returns every batch emitted to the
sink in order, and the exception that ended the stroke, if any. -/
def runStroke (startPosition : PointerPoint) (samples : List (PointerPoint × Nat)) :
    List Batch × Option CodeErr :=
  match runSamples (initPipeline startPosition) samples with
  | (_, bs, some e) => (bs, some e)
  | (s, bs, none) =>
    match closePipeline s with
    | (bs', err) => (bs ++ bs', err)

/-- All batches a stroke hands to the sink. -/
def strokeBatches (startPosition : PointerPoint) (samples : List (PointerPoint × Nat)) :
    List Batch :=
  (runStroke startPosition samples).1

/-- All segments a stroke hands to the sink, in emission order. -/
def strokeSegments (startPosition : PointerPoint) (samples : List (PointerPoint × Nat)) :
    List Segment :=
  (strokeBatches startPosition samples).foldr (fun b acc => b.segments ++ acc) []

/-- Feed a position sequence directly into the reversal detector, collecting
detect's results. -/
def detectRun (d : RDState) : List PointerPoint → Except CodeErr (List (Option PointerPoint))
  | [] => .ok []
  | p :: rest =>
    match RDState.detect detectFuel d p with
    | .error e => .error e
    | .ok (r, d') =>
      match detectRun d' rest with
      | .error e => .error e
      | .ok rs => .ok (r :: rs)

/-! ## Derived notions used to state the claims -/

/-- The alpha value as the specification words it: 4/3 when ddenom(p1,p3)
is zero; otherwise 0 when the ratio magnitude is at most 1 and
(1 - 1/dd)/0.75 when it exceeds 1. -/
def specAlpha (l1 l2 : PathLine) : ℚ :=
  let p1 := mapFromDeviceToScene l1.p1
  let p2 := mapFromDeviceToScene l1.p2
  let p3 := mapFromDeviceToScene l2.p2
  if ddenom p1 p3 = 0 then 4/3
  else if |areaOfParallelogram p1 p2 p3 / ddenom p1 p3| ≤ 1 then 0
  else (1 - 1 / |areaOfParallelogram p1 p2 p3 / ddenom p1 p3|) / (3/4)

/-- The scene-space midpoint of a PathLine (the point the curve generator
draws to when it last processed that line). -/
def sceneMid (l : PathLine) : FreehandPoint :=
  (mapFromDeviceToScene l.p2).interval (mapFromDeviceToScene l.p1) (1/2)

/-- All segments of a batch list, in order. -/
def batchesSegs (bs : List Batch) : List Segment :=
  bs.foldr (fun b acc => b.segments ++ acc) []

/-- The segments of one optional batch. -/
def batchSegs : Option Batch → List Segment
  | none => []
  | some b => b.segments

/-- A segment list is a connected chain continuing from an optional
previous end anchor. -/
def chainedFrom : Option FreehandPoint → List Segment → Prop
  | _, [] => True
  | a, seg :: rest => (∀ e, a = some e → seg.c0 = e) ∧ chainedFrom (some seg.c3) rest

/-- The last end anchor after appending a segment list to a chain. -/
def endAnchor (a : Option FreehandPoint) (l : List Segment) : Option FreehandPoint :=
  l.foldl (fun _ seg => some seg.c3) a

/-- The curve generator's connectivity invariant: the cached last generated
end point is None before anything was emitted, and otherwise equals the
scene midpoint of the pending history line and agrees with the last emitted
end anchor. -/
def CInv (cs : CurveGenState) (a : Option FreehandPoint) : Prop :=
  (cs.lastEndPointGenerated = none → a = none) ∧
  (∀ e, cs.lastEndPointGenerated = some e →
    (a = none ∨ a = some e) ∧ e = sceneMid cs.historyEnd)

/-- The pipeline-level connectivity invariant: the curve generator's
invariant, plus the fact that the line generator's next emitted line will
start where the curve generator's pending line ends. -/
def PInv (s : PipelineState) (a : Option FreehandPoint) : Prop :=
  CInv s.curveGen a ∧ s.curveGen.historyEnd.p2 = s.lineGen.turnHistory.start

/-! ## Basic lemmas -/

theorem pointEqOfCoords {p q : PointerPoint} (hx : p.x = q.x) (hy : p.y = q.y) : p = q := by
  cases p; cases q; simp_all

theorem fpointEqOfCoords {p q : FreehandPoint} (hx : p.x = q.x) (hy : p.y = q.y) : p = q := by
  cases p; cases q; simp_all

theorem mapFromDeviceToScene_injective :
    Function.Injective mapFromDeviceToScene := by
  intro p q h
  simp only [mapFromDeviceToScene, FreehandPoint.mk.injEq] at h
  exact pointEqOfCoords (by exact_mod_cast h.1) (by exact_mod_cast h.2)

theorem interval_self (p : FreehandPoint) (t : ℚ) : p.interval p t = p := by
  simp [FreehandPoint.interval]

theorem isNullPathLine_iff (l : PathLine) : l.isNullPathLine = true ↔ l.p2 = l.p1 := by
  simp only [PathLine.isNullPathLine, decide_eq_true_eq, sub_eq_zero]
  constructor
  · rintro ⟨hx, hy⟩; exact pointEqOfCoords hx hy
  · intro h; rw [h]; exact ⟨rfl, rfl⟩

theorem signQ_mul_self (a : ℚ) : sign a * a = |a| := by
  unfold sign
  rcases lt_trichotomy a 0 with h | h | h
  · rw [if_neg (by linarith), if_pos h, abs_of_neg h]; ring
  · simp [h]
  · rw [if_pos h, abs_of_pos h]; ring

theorem ddenom_eq_abs (p q : FreehandPoint) :
    ddenom p q = |q.x - p.x| + |q.y - p.y| := by
  have h : ddenom p q = sign (q.x - p.x) * (q.x - p.x) + sign (q.y - p.y) * (q.y - p.y) := by
    simp only [ddenom, FreehandPoint.cardinalDirectionLeft90]
    ring
  rw [h, signQ_mul_self, signQ_mul_self]

theorem ddenom_eq_zero_iff (p q : FreehandPoint) : ddenom p q = 0 ↔ q = p := by
  rw [ddenom_eq_abs]
  constructor
  · intro h
    have hax := abs_nonneg (q.x - p.x)
    have hay := abs_nonneg (q.y - p.y)
    have hx : |q.x - p.x| = 0 := by linarith
    have hy : |q.y - p.y| = 0 := by linarith
    rw [abs_eq_zero, sub_eq_zero] at hx hy
    exact fpointEqOfCoords hx hy
  · intro h; rw [h]; simp

/-! ## Claim theorems -/

/-- C1: for the pointer samples (0,0),(5,0),(10,0) fed non-forced into a
freshly initialized pipeline and then close(), the pipeline emits exactly
one straight Segment from (0,0) to (10,0) (both direction control points at
the midpoint (5,0)), with cuspness list [true], and no error; this holds for
arbitrary elapsed times between the samples. -/
theorem straightStroke_endToEnd (e1 e2 e3 : Nat) :
    runStroke ⟨0, 0⟩ [(⟨0, 0⟩, e1), (⟨5, 0⟩, e2), (⟨10, 0⟩, e3)] =
      ([⟨[⟨⟨0, 0⟩, ⟨5, 0⟩, ⟨5, 0⟩, ⟨10, 0⟩⟩], [true]⟩], none) := by
  rfl

/-- Witness for straightStroke_endToEnd at elapsed times 1, 2, 3. -/
theorem straightStroke_endToEnd_witness :
    runStroke ⟨0, 0⟩ [(⟨0, 0⟩, 1), (⟨5, 0⟩, 2), (⟨10, 0⟩, 3)] =
      ([⟨[⟨⟨0, 0⟩, ⟨5, 0⟩, ⟨5, 0⟩, ⟨10, 0⟩⟩], [true]⟩], none) :=
  straightStroke_endToEnd 1 2 3

/-- C6 counterexample: feeding (0,0),(1,0),(2,0),(3,0),(2,0) into the
reversal detector reports no turn at all; in particular no result in the
run is the claimed turn at (3,0), because the final sample (2,0) is exactly
one unit inside the growing bound 3, within the detector's jitter
tolerance (_isReversal requires strictly more than one unit). -/
theorem reversalSequence_reportsNoTurn_counterexample :
    ¬ ∃ rs, detectRun (RDState.reset ⟨0, 0⟩)
        [⟨0, 0⟩, ⟨1, 0⟩, ⟨2, 0⟩, ⟨3, 0⟩, ⟨2, 0⟩] = .ok rs ∧
        (some (⟨3, 0⟩ : PointerPoint)) ∈ rs := by
  rintro ⟨rs, h1, h2⟩
  have h0 : detectRun (RDState.reset ⟨0, 0⟩)
      [⟨0, 0⟩, ⟨1, 0⟩, ⟨2, 0⟩, ⟨3, 0⟩, ⟨2, 0⟩] =
      .ok [none, none, none, none, none] := by rfl
  rw [h0] at h1
  cases h1
  simp at h2

/-- C6 amended: for the sample sequence (0,0),(1,0),(2,0),(3,0),(2,0) the
reversal detector reports no turn for any sample: the final one-unit
retrace is absorbed as jitter. -/
theorem reversalSequence_allAbsorbed :
    detectRun (RDState.reset ⟨0, 0⟩) [⟨0, 0⟩, ⟨1, 0⟩, ⟨2, 0⟩, ⟨3, 0⟩, ⟨2, 0⟩] =
      .ok [none, none, none, none, none] := by
  rfl

/-- C9: the stroke with samples (1,1),(2,-1),(1,1) (three diagonal jumps,
each a turn, within one millisecond so nothing is treated as forced) ends
with the line generator's collapsed history sending a forced null PathLine
at (1,1) while the curve generator still holds the pending non-null line
(0,0)-(1,1); segmentsFromLineMidToEnd then constructs its unguarded
trailing LineSegment from (1,1) to (1,1) and the FreehandNullSegmentError
escapes the curve generator, ending the stroke after the single batch
already emitted. -/
theorem nullSegmentError_escapes_curveGenerator :
    runStroke ⟨0, 0⟩ [(⟨1, 1⟩, 0), (⟨2, -1⟩, 0), (⟨1, 1⟩, 0)] =
      ([⟨[⟨⟨0, 0⟩, ⟨0, 0⟩, ⟨9/40, 9/40⟩, ⟨1/2, 1/2⟩⟩], [false]⟩],
       some .nullSegment) := by
  rfl

/-- C4: the turn generator does not push (turn, isForced=false).  At a
freshly initialized turn generator at (0,0), the diagonal position (1,1) is
recognized as a turn and the pair pushed downstream is
(turn, positionElapsedTime) — here ((1,1), 5) — whose second element the
line generator reads as its isForced flag; its Python truthiness is true,
not the claimed false.  (The generator's receive loop takes a bare
position, so it has no branch at all for a forced input pair.) -/
theorem turnGenerator_pushes_elapsedTime_as_flag :
    turnGenEmission
        { history := History.collapse ⟨0, 0⟩, reversalDetector := RDState.reset ⟨0, 0⟩ }
        ⟨1, 1⟩ 5 =
      .ok (some (⟨1, 1⟩, 5), RDState.reset ⟨1, 1⟩) ∧
    pythonTruthy 5 = true ∧ pythonTruthy 5 ≠ false := by
  exact ⟨rfl, rfl, by decide⟩

/-- C3 counterexample: closing the line generator with the non-collapsed
turn history ((0,0),(10,0)) sends exactly one line, PathLine((0,0),(10,0))
marked forced — not the claimed non-forced line followed by a second,
non-forced null line. -/
theorem flushLineGenerator_counterexample :
    flushLineGenerator { turnHistory := ⟨⟨0, 0⟩, ⟨10, 0⟩⟩, constraints := Constraints.init } =
      [(⟨⟨0, 0⟩, ⟨10, 0⟩⟩, true)] ∧
    flushLineGenerator { turnHistory := ⟨⟨0, 0⟩, ⟨10, 0⟩⟩, constraints := Constraints.init } ≠
      [(⟨⟨0, 0⟩, ⟨10, 0⟩⟩, false), (PathLine.nullPathLine ⟨10, 0⟩, false)] := by
  exact ⟨rfl, by decide⟩

/-- C3 amended: on close the line generator sends exactly one line, always
marked forced: the pending history line when the turn history is not
collapsed, else a null PathLine at the history end; so the curve generator
always receives exactly one terminating forced line. -/
theorem flushLineGenerator_sendsOneForcedLine (s : LineGenState) :
    flushLineGenerator s =
      [(if s.turnHistory.isCollapsed then PathLine.nullPathLine s.turnHistory.«end»
        else ⟨s.turnHistory.start, s.turnHistory.«end»⟩, true)] := by
  unfold flushLineGenerator sendForcedLine
  by_cases h : s.turnHistory.isCollapsed = true
  · simp [h]
  · simp [h]

/-- C7 counterexample: the abutting PathLines (0,0)-(10,0) and (10,0)-(5,0)
have collinear defining points with p3 = (5,0) reversing back along the
p1-p2 direction (a 180-degree bend), yet the curve generator computes
area = 0, hence alpha = 0 ≤ 1.2, and emits exactly one cubic Segment with
cuspness [false] — not two straight Segments. -/
theorem collinearReversal_singleCubic_counterexample :
    segmentsFromLineMidToMid (some ⟨5, 0⟩) ⟨⟨0, 0⟩, ⟨10, 0⟩⟩ ⟨⟨10, 0⟩, ⟨5, 0⟩⟩ =
      .ok ([⟨⟨5, 0⟩, ⟨31/4, 0⟩, ⟨71/8, 0⟩, ⟨15/2, 0⟩⟩], ⟨15/2, 0⟩, [false]) ∧
    specAlpha ⟨⟨0, 0⟩, ⟨10, 0⟩⟩ ⟨⟨10, 0⟩, ⟨5, 0⟩⟩ = 0 := by
  exact ⟨rfl, by decide⟩

/-! ## Alpha characterization (C5, C7, C10) -/

theorem clampAlpha_eq (a : ℚ) : clampAlpha a = max (11/20) (min 1 a) := by
  unfold clampAlpha
  split_ifs with h1 h2
  · rw [max_eq_left]
    exact le_trans (min_le_right 1 a) (by linarith)
  · rw [min_eq_left (by linarith), max_eq_right (by norm_num)]
  · rw [min_eq_right (by linarith), max_eq_right (by linarith)]

theorem midpoints_eq_iff (p1 p2 p3 : FreehandPoint) :
    p2.interval p1 (1/2) = p3.interval p2 (1/2) ↔ p1 = p3 := by
  simp only [FreehandPoint.interval, FreehandPoint.mk.injEq]
  constructor
  · rintro ⟨hx, hy⟩
    exact fpointEqOfCoords (by linarith) (by linarith)
  · rintro rfl
    exact ⟨by ring, by ring⟩

theorem specAlpha_of_denom_zero (l1 l2 : PathLine)
    (hd : ddenom (mapFromDeviceToScene l1.p1) (mapFromDeviceToScene l2.p2) = 0) :
    specAlpha l1 l2 = 4/3 := by
  simp [specAlpha, hd]

theorem denom_ne_zero_of_specAlpha_le (l1 l2 : PathLine)
    (h : specAlpha l1 l2 ≤ 6/5) :
    ddenom (mapFromDeviceToScene l1.p1) (mapFromDeviceToScene l2.p2) ≠ 0 := by
  intro hd
  rw [specAlpha_of_denom_zero l1 l2 hd] at h
  norm_num at h

theorem midToMid_cusp_eq (le : Option FreehandPoint) (l1 l2 : PathLine)
    (h : specAlpha l1 l2 > ALPHAMAX) :
    segmentsFromLineMidToMid le l1 l2 =
      segmentsForCusp le (mapFromDeviceToScene l1.p2)
        ((mapFromDeviceToScene l2.p2).interval (mapFromDeviceToScene l1.p2) (1/2)) := by
  have h' := h
  simp only [specAlpha] at h'
  simp only [segmentsFromLineMidToMid]
  by_cases hd : ddenom (mapFromDeviceToScene l1.p1) (mapFromDeviceToScene l2.p2) = 0
  · rw [if_neg (not_not_intro hd)]
    rw [if_pos (show (4:ℚ)/3 > ALPHAMAX by rw [ALPHAMAX]; norm_num)]
  · rw [if_neg hd] at h'
    rw [if_pos hd]
    by_cases hdd : |areaOfParallelogram (mapFromDeviceToScene l1.p1)
        (mapFromDeviceToScene l1.p2) (mapFromDeviceToScene l2.p2) /
        ddenom (mapFromDeviceToScene l1.p1) (mapFromDeviceToScene l2.p2)| > 1
    · rw [if_neg (not_le_of_lt hdd)] at h'
      rw [if_pos hdd, if_pos h']
    · rw [if_pos (not_lt.mp hdd)] at h'
      exact absurd h' (by rw [ALPHAMAX]; norm_num)

theorem midToMid_smooth_eq (le : Option FreehandPoint) (l1 l2 : PathLine)
    (h : ¬ specAlpha l1 l2 > ALPHAMAX) :
    segmentsFromLineMidToMid le l1 l2 =
      .ok ([⟨(mapFromDeviceToScene l1.p2).interval (mapFromDeviceToScene l1.p1) (1/2),
            (mapFromDeviceToScene l1.p1).interval (mapFromDeviceToScene l1.p2)
              (1/2 + 1/2 * clampAlpha (specAlpha l1 l2)),
            (mapFromDeviceToScene l2.p2).interval (mapFromDeviceToScene l1.p2)
              (1/2 + 1/2 * clampAlpha (specAlpha l1 l2)),
            (mapFromDeviceToScene l2.p2).interval (mapFromDeviceToScene l1.p2) (1/2)⟩],
           (mapFromDeviceToScene l2.p2).interval (mapFromDeviceToScene l1.p2) (1/2),
           [false]) := by
  have hd : ddenom (mapFromDeviceToScene l1.p1) (mapFromDeviceToScene l2.p2) ≠ 0 := by
    refine denom_ne_zero_of_specAlpha_le l1 l2 ?_
    have := not_lt.mp h
    rw [ALPHAMAX] at this
    exact this
  have hne : (mapFromDeviceToScene l1.p2).interval (mapFromDeviceToScene l1.p1) (1/2) ≠
      (mapFromDeviceToScene l2.p2).interval (mapFromDeviceToScene l1.p2) (1/2) := by
    intro heq
    exact hd ((ddenom_eq_zero_iff _ _).mpr ((midpoints_eq_iff _ _ _).mp heq).symm)
  have h' := h
  simp only [specAlpha] at h'
  simp only [segmentsFromLineMidToMid, specAlpha]
  rw [if_neg hd] at h'
  rw [if_pos hd, if_neg hd]
  by_cases hdd : |areaOfParallelogram (mapFromDeviceToScene l1.p1)
      (mapFromDeviceToScene l1.p2) (mapFromDeviceToScene l2.p2) /
      ddenom (mapFromDeviceToScene l1.p1) (mapFromDeviceToScene l2.p2)| > 1
  · rw [if_neg (not_le_of_lt hdd)] at h'
    rw [if_pos hdd, if_neg (not_le_of_lt hdd), if_neg h', CurveSegment, if_neg hne]
  · rw [if_pos (not_lt.mp hdd)] at h'
    rw [if_neg hdd, if_pos (not_lt.mp hdd), if_neg h', CurveSegment, if_neg hne]

theorem interval_half_eq_iff (a b : FreehandPoint) : a.interval b (1/2) = b ↔ a = b := by
  obtain ⟨ax, ay⟩ := a
  obtain ⟨bx, by2⟩ := b
  simp only [FreehandPoint.interval, FreehandPoint.mk.injEq]
  constructor
  · rintro ⟨hx, hy⟩
    exact ⟨by linarith, by linarith⟩
  · rintro ⟨hx, hy⟩
    exact ⟨by linarith, by linarith⟩

theorem segmentsForCusp_ok (e cusp endP : FreehandPoint) (h1 : e ≠ cusp) (h2 : cusp ≠ endP) :
    segmentsForCusp (some e) cusp endP =
      .ok ([⟨e, e.interval cusp (1/2), e.interval cusp (1/2), cusp⟩,
            ⟨cusp, cusp.interval endP (1/2), cusp.interval endP (1/2), endP⟩],
           endP, [true, false]) := by
  simp only [segmentsForCusp, LineSegment]
  rw [if_neg h1, if_neg h2]

/-- C5: for abutting PathLines processed non-forced, with p1, p2, p3 their
three defining points mapped to scene space: alpha is 4/3 when
ddenom(p1,p3) = 0, else 0 when |area/ddenom| ≤ 1 and (1 - 1/dd)/0.75 when
dd > 1 (this is specAlpha); when alpha > 1.2 the cusp path
(segmentsForCusp at p2 and midpoint2) is taken, and otherwise exactly one
cubic Segment from midpoint1 to midpoint2 is produced whose control points
are interval(p1,p2,0.5+0.5a) and interval(p3,p2,0.5+0.5a) with a = alpha
clamped to [0.55, 1.0], with cuspness [false]. -/
theorem segmentsFromLineMidToMid_alphaSpec (le : Option FreehandPoint) (l1 l2 : PathLine)
    (_habut : l2.p1 = l1.p2) :
    (specAlpha l1 l2 > 6/5 →
      segmentsFromLineMidToMid le l1 l2 =
        segmentsForCusp le (mapFromDeviceToScene l1.p2)
          ((mapFromDeviceToScene l2.p2).interval (mapFromDeviceToScene l1.p2) (1/2))) ∧
    (specAlpha l1 l2 ≤ 6/5 →
      segmentsFromLineMidToMid le l1 l2 =
        .ok ([⟨(mapFromDeviceToScene l1.p2).interval (mapFromDeviceToScene l1.p1) (1/2),
              (mapFromDeviceToScene l1.p1).interval (mapFromDeviceToScene l1.p2)
                (1/2 + 1/2 * max (11/20) (min 1 (specAlpha l1 l2))),
              (mapFromDeviceToScene l2.p2).interval (mapFromDeviceToScene l1.p2)
                (1/2 + 1/2 * max (11/20) (min 1 (specAlpha l1 l2))),
              (mapFromDeviceToScene l2.p2).interval (mapFromDeviceToScene l1.p2) (1/2)⟩],
             (mapFromDeviceToScene l2.p2).interval (mapFromDeviceToScene l1.p2) (1/2),
             [false])) := by
  constructor
  · intro h
    exact midToMid_cusp_eq le l1 l2 (by rw [ALPHAMAX]; exact h)
  · intro h
    rw [midToMid_smooth_eq le l1 l2 (by rw [ALPHAMAX]; exact not_lt.mpr h), clampAlpha_eq]

/-- Witness for segmentsFromLineMidToMid_alphaSpec: the 90-degree bend
(0,0)-(10,0) then (10,0)-(10,10) with cached end point (5,0); its alpha is
16/15 ≤ 6/5 and one cubic is produced. -/
theorem segmentsFromLineMidToMid_alphaSpec_witness :
    (⟨⟨10, 0⟩, ⟨10, 10⟩⟩ : PathLine).p1 = (⟨⟨0, 0⟩, ⟨10, 0⟩⟩ : PathLine).p2 ∧
    ((specAlpha ⟨⟨0, 0⟩, ⟨10, 0⟩⟩ ⟨⟨10, 0⟩, ⟨10, 10⟩⟩ > 6/5 →
      segmentsFromLineMidToMid (some ⟨5, 0⟩) ⟨⟨0, 0⟩, ⟨10, 0⟩⟩ ⟨⟨10, 0⟩, ⟨10, 10⟩⟩ =
        segmentsForCusp (some ⟨5, 0⟩)
          (mapFromDeviceToScene (⟨⟨0, 0⟩, ⟨10, 0⟩⟩ : PathLine).p2)
          ((mapFromDeviceToScene (⟨⟨10, 0⟩, ⟨10, 10⟩⟩ : PathLine).p2).interval
            (mapFromDeviceToScene (⟨⟨0, 0⟩, ⟨10, 0⟩⟩ : PathLine).p2) (1/2))) ∧
    (specAlpha ⟨⟨0, 0⟩, ⟨10, 0⟩⟩ ⟨⟨10, 0⟩, ⟨10, 10⟩⟩ ≤ 6/5 →
      segmentsFromLineMidToMid (some ⟨5, 0⟩) ⟨⟨0, 0⟩, ⟨10, 0⟩⟩ ⟨⟨10, 0⟩, ⟨10, 10⟩⟩ =
        .ok ([⟨(mapFromDeviceToScene (⟨⟨0, 0⟩, ⟨10, 0⟩⟩ : PathLine).p2).interval
                (mapFromDeviceToScene (⟨⟨0, 0⟩, ⟨10, 0⟩⟩ : PathLine).p1) (1/2),
              (mapFromDeviceToScene (⟨⟨0, 0⟩, ⟨10, 0⟩⟩ : PathLine).p1).interval
                (mapFromDeviceToScene (⟨⟨0, 0⟩, ⟨10, 0⟩⟩ : PathLine).p2)
                (1/2 + 1/2 * max (11/20)
                  (min 1 (specAlpha ⟨⟨0, 0⟩, ⟨10, 0⟩⟩ ⟨⟨10, 0⟩, ⟨10, 10⟩⟩))),
              (mapFromDeviceToScene (⟨⟨10, 0⟩, ⟨10, 10⟩⟩ : PathLine).p2).interval
                (mapFromDeviceToScene (⟨⟨0, 0⟩, ⟨10, 0⟩⟩ : PathLine).p2)
                (1/2 + 1/2 * max (11/20)
                  (min 1 (specAlpha ⟨⟨0, 0⟩, ⟨10, 0⟩⟩ ⟨⟨10, 0⟩, ⟨10, 10⟩⟩))),
              (mapFromDeviceToScene (⟨⟨10, 0⟩, ⟨10, 10⟩⟩ : PathLine).p2).interval
                (mapFromDeviceToScene (⟨⟨0, 0⟩, ⟨10, 0⟩⟩ : PathLine).p2) (1/2)⟩],
             (mapFromDeviceToScene (⟨⟨10, 0⟩, ⟨10, 10⟩⟩ : PathLine).p2).interval
               (mapFromDeviceToScene (⟨⟨0, 0⟩, ⟨10, 0⟩⟩ : PathLine).p2) (1/2),
             [false]))) :=
  ⟨rfl, segmentsFromLineMidToMid_alphaSpec (some ⟨5, 0⟩) ⟨⟨0, 0⟩, ⟨10, 0⟩⟩
    ⟨⟨10, 0⟩, ⟨10, 10⟩⟩ rfl⟩

/-- C10: whenever alpha ≤ ALPHAMAX (the smooth branch is taken), ddenom of
the outer points is nonzero, so the scene images of p1 and p3 differ, the
two midpoints differ, and segmentsFromLineMidToMid cannot hit the
CurveSegment constructor's start = end failure: it returns ok. -/
theorem smoothBranch_never_nullSegment (le : Option FreehandPoint) (l1 l2 : PathLine)
    (h : specAlpha l1 l2 ≤ 6/5) :
    ddenom (mapFromDeviceToScene l1.p1) (mapFromDeviceToScene l2.p2) ≠ 0 ∧
    mapFromDeviceToScene l1.p1 ≠ mapFromDeviceToScene l2.p2 ∧
    (mapFromDeviceToScene l1.p2).interval (mapFromDeviceToScene l1.p1) (1/2) ≠
      (mapFromDeviceToScene l2.p2).interval (mapFromDeviceToScene l1.p2) (1/2) ∧
    ∃ r, segmentsFromLineMidToMid le l1 l2 = .ok r := by
  have hd : ddenom (mapFromDeviceToScene l1.p1) (mapFromDeviceToScene l2.p2) ≠ 0 :=
    denom_ne_zero_of_specAlpha_le l1 l2 h
  refine ⟨hd, ?_, ?_, ?_⟩
  · intro heq
    exact hd ((ddenom_eq_zero_iff _ _).mpr heq.symm)
  · intro heq
    exact hd ((ddenom_eq_zero_iff _ _).mpr ((midpoints_eq_iff _ _ _).mp heq).symm)
  · exact ⟨_, midToMid_smooth_eq le l1 l2 (by rw [ALPHAMAX]; exact not_lt.mpr h)⟩

/-- Witness for smoothBranch_never_nullSegment at the 90-degree bend with
alpha 16/15. -/
theorem smoothBranch_never_nullSegment_witness :
    specAlpha ⟨⟨0, 0⟩, ⟨10, 0⟩⟩ ⟨⟨10, 0⟩, ⟨10, 10⟩⟩ ≤ 6/5 ∧
    (ddenom (mapFromDeviceToScene (⟨⟨0, 0⟩, ⟨10, 0⟩⟩ : PathLine).p1)
        (mapFromDeviceToScene (⟨⟨10, 0⟩, ⟨10, 10⟩⟩ : PathLine).p2) ≠ 0 ∧
     mapFromDeviceToScene (⟨⟨0, 0⟩, ⟨10, 0⟩⟩ : PathLine).p1 ≠
       mapFromDeviceToScene (⟨⟨10, 0⟩, ⟨10, 10⟩⟩ : PathLine).p2 ∧
     (mapFromDeviceToScene (⟨⟨0, 0⟩, ⟨10, 0⟩⟩ : PathLine).p2).interval
         (mapFromDeviceToScene (⟨⟨0, 0⟩, ⟨10, 0⟩⟩ : PathLine).p1) (1/2) ≠
       (mapFromDeviceToScene (⟨⟨10, 0⟩, ⟨10, 10⟩⟩ : PathLine).p2).interval
         (mapFromDeviceToScene (⟨⟨0, 0⟩, ⟨10, 0⟩⟩ : PathLine).p2) (1/2) ∧
     ∃ r, segmentsFromLineMidToMid (some ⟨5, 0⟩) ⟨⟨0, 0⟩, ⟨10, 0⟩⟩ ⟨⟨10, 0⟩, ⟨10, 10⟩⟩ =
       .ok r) :=
  ⟨by decide, smoothBranch_never_nullSegment (some ⟨5, 0⟩) ⟨⟨0, 0⟩, ⟨10, 0⟩⟩
    ⟨⟨10, 0⟩, ⟨10, 10⟩⟩ (by decide)⟩

/-- C7 amended: for abutting PathLines whose third point reverses exactly
back onto the first (p3 = p1, the only 180-degree-bend case on which the
potrace formula does not see a straight line), with a non-null first line
and a cached last end point distinct from p2: alpha = 4/3 > 1.2 and the
curve generator emits two straight Segments with cuspness [true, false],
never a single cubic. -/
theorem exactReversal_twoStraightSegments (le : Option FreehandPoint) (l1 l2 : PathLine)
    (e : FreehandPoint) (_habut : l2.p1 = l1.p2) (hrev : l2.p2 = l1.p1)
    (hne : l1.p1 ≠ l1.p2) (hle : le = some e)
    (hecusp : e ≠ mapFromDeviceToScene l1.p2) :
    specAlpha l1 l2 = 4/3 ∧ (4:ℚ)/3 > 6/5 ∧
    segmentsFromLineMidToMid le l1 l2 =
      .ok ([⟨e, e.interval (mapFromDeviceToScene l1.p2) (1/2),
             e.interval (mapFromDeviceToScene l1.p2) (1/2), mapFromDeviceToScene l1.p2⟩,
            ⟨mapFromDeviceToScene l1.p2,
             (mapFromDeviceToScene l1.p2).interval
               ((mapFromDeviceToScene l2.p2).interval (mapFromDeviceToScene l1.p2) (1/2)) (1/2),
             (mapFromDeviceToScene l1.p2).interval
               ((mapFromDeviceToScene l2.p2).interval (mapFromDeviceToScene l1.p2) (1/2)) (1/2),
             (mapFromDeviceToScene l2.p2).interval (mapFromDeviceToScene l1.p2) (1/2)⟩],
           (mapFromDeviceToScene l2.p2).interval (mapFromDeviceToScene l1.p2) (1/2),
           [true, false]) := by
  have hd : ddenom (mapFromDeviceToScene l1.p1) (mapFromDeviceToScene l2.p2) = 0 := by
    rw [hrev]
    exact (ddenom_eq_zero_iff _ _).mpr rfl
  have hA : specAlpha l1 l2 = 4/3 := specAlpha_of_denom_zero l1 l2 hd
  refine ⟨hA, by norm_num, ?_⟩
  have hcusp : segmentsFromLineMidToMid le l1 l2 =
      segmentsForCusp le (mapFromDeviceToScene l1.p2)
        ((mapFromDeviceToScene l2.p2).interval (mapFromDeviceToScene l1.p2) (1/2)) :=
    midToMid_cusp_eq le l1 l2 (by rw [hA, ALPHAMAX]; norm_num)
  have hmid : mapFromDeviceToScene l1.p2 ≠
      (mapFromDeviceToScene l2.p2).interval (mapFromDeviceToScene l1.p2) (1/2) := by
    intro heq
    have h3 : mapFromDeviceToScene l2.p2 = mapFromDeviceToScene l1.p2 :=
      (interval_half_eq_iff _ _).mp heq.symm
    rw [hrev] at h3
    exact hne (mapFromDeviceToScene_injective h3)
  rw [hcusp, hle, segmentsForCusp_ok e _ _ hecusp hmid]

/-- Witness for exactReversal_twoStraightSegments at l1 = (0,0)-(10,0),
l2 = (10,0)-(0,0), cached end point (5,0). -/
theorem exactReversal_twoStraightSegments_witness :
    (⟨⟨10, 0⟩, ⟨0, 0⟩⟩ : PathLine).p1 = (⟨⟨0, 0⟩, ⟨10, 0⟩⟩ : PathLine).p2 ∧
    (⟨⟨10, 0⟩, ⟨0, 0⟩⟩ : PathLine).p2 = (⟨⟨0, 0⟩, ⟨10, 0⟩⟩ : PathLine).p1 ∧
    (⟨⟨0, 0⟩, ⟨10, 0⟩⟩ : PathLine).p1 ≠ (⟨⟨0, 0⟩, ⟨10, 0⟩⟩ : PathLine).p2 ∧
    (⟨5, 0⟩ : FreehandPoint) ≠ mapFromDeviceToScene (⟨⟨0, 0⟩, ⟨10, 0⟩⟩ : PathLine).p2 ∧
    (specAlpha ⟨⟨0, 0⟩, ⟨10, 0⟩⟩ ⟨⟨10, 0⟩, ⟨0, 0⟩⟩ = 4/3 ∧ (4:ℚ)/3 > 6/5 ∧
     segmentsFromLineMidToMid (some ⟨5, 0⟩) ⟨⟨0, 0⟩, ⟨10, 0⟩⟩ ⟨⟨10, 0⟩, ⟨0, 0⟩⟩ =
       .ok ([⟨⟨5, 0⟩,
              FreehandPoint.interval ⟨5, 0⟩
                (mapFromDeviceToScene (⟨⟨0, 0⟩, ⟨10, 0⟩⟩ : PathLine).p2) (1/2),
              FreehandPoint.interval ⟨5, 0⟩
                (mapFromDeviceToScene (⟨⟨0, 0⟩, ⟨10, 0⟩⟩ : PathLine).p2) (1/2),
              mapFromDeviceToScene (⟨⟨0, 0⟩, ⟨10, 0⟩⟩ : PathLine).p2⟩,
             ⟨mapFromDeviceToScene (⟨⟨0, 0⟩, ⟨10, 0⟩⟩ : PathLine).p2,
              (mapFromDeviceToScene (⟨⟨0, 0⟩, ⟨10, 0⟩⟩ : PathLine).p2).interval
                ((mapFromDeviceToScene (⟨⟨10, 0⟩, ⟨0, 0⟩⟩ : PathLine).p2).interval
                  (mapFromDeviceToScene (⟨⟨0, 0⟩, ⟨10, 0⟩⟩ : PathLine).p2) (1/2)) (1/2),
              (mapFromDeviceToScene (⟨⟨0, 0⟩, ⟨10, 0⟩⟩ : PathLine).p2).interval
                ((mapFromDeviceToScene (⟨⟨10, 0⟩, ⟨0, 0⟩⟩ : PathLine).p2).interval
                  (mapFromDeviceToScene (⟨⟨0, 0⟩, ⟨10, 0⟩⟩ : PathLine).p2) (1/2)) (1/2),
              (mapFromDeviceToScene (⟨⟨10, 0⟩, ⟨0, 0⟩⟩ : PathLine).p2).interval
                (mapFromDeviceToScene (⟨⟨0, 0⟩, ⟨10, 0⟩⟩ : PathLine).p2) (1/2)⟩],
            (mapFromDeviceToScene (⟨⟨10, 0⟩, ⟨0, 0⟩⟩ : PathLine).p2).interval
              (mapFromDeviceToScene (⟨⟨0, 0⟩, ⟨10, 0⟩⟩ : PathLine).p2) (1/2),
            [true, false])) :=
  ⟨rfl, rfl, by decide, by decide,
   exactReversal_twoStraightSegments (some ⟨5, 0⟩) ⟨⟨0, 0⟩, ⟨10, 0⟩⟩ ⟨⟨10, 0⟩, ⟨0, 0⟩⟩
     ⟨5, 0⟩ rfl rfl (by decide) rfl (by decide)⟩

/-! ## Connectivity development (C2, C8) -/

theorem endAnchor_nil (a : Option FreehandPoint) : endAnchor a [] = a := rfl

theorem endAnchor_append (a : Option FreehandPoint) (xs ys : List Segment) :
    endAnchor a (xs ++ ys) = endAnchor (endAnchor a xs) ys := by
  simp [endAnchor, List.foldl_append]

theorem chainedFrom_append (xs : List Segment) :
    ∀ (a : Option FreehandPoint) (ys : List Segment),
      chainedFrom a xs → chainedFrom (endAnchor a xs) ys → chainedFrom a (xs ++ ys) := by
  induction xs with
  | nil => intro a ys _ h2; exact h2
  | cons x rest ih =>
    intro a ys h1 h2
    obtain ⟨hx, hrest⟩ := h1
    exact ⟨hx, ih (some x.c3) ys hrest h2⟩

theorem chain'_of_chainedFrom (l : List Segment) :
    ∀ a : Option FreehandPoint, chainedFrom a l →
      List.Chain' (fun s t => t.c0 = s.c3) l := by
  induction l with
  | nil => intro a _; exact List.chain'_nil
  | cons x rest ih =>
    intro a h
    obtain ⟨_, hrest⟩ := h
    cases rest with
    | nil => exact List.chain'_singleton x
    | cons y rest' =>
      refine List.Chain'.cons ?_ (ih (some x.c3) hrest)
      exact hrest.1 x.c3 rfl

theorem batchesSegs_nil : batchesSegs [] = [] := rfl

theorem batchesSegs_append (bs1 bs2 : List Batch) :
    batchesSegs (bs1 ++ bs2) = batchesSegs bs1 ++ batchesSegs bs2 := by
  induction bs1 with
  | nil => rfl
  | cons b rest ih =>
    show b.segments ++ batchesSegs (rest ++ bs2) =
      (b.segments ++ batchesSegs rest) ++ batchesSegs bs2
    rw [ih, List.append_assoc]

theorem sceneMid_of_null {l : PathLine} (h : l.isNullPathLine = true) :
    sceneMid l = mapFromDeviceToScene l.p2 := by
  rw [sceneMid, ← congrArg mapFromDeviceToScene ((isNullPathLine_iff l).mp h), interval_self]

theorem isCollapsed_iff {α : Type} [DecidableEq α] (h : History α) :
    h.isCollapsed = true ↔ h.start = h.«end» := by
  simp [History.isCollapsed]

theorem midToMid_chain_spec (le : Option FreehandPoint) (l1 l2 : PathLine)
    (a : Option FreehandPoint)
    (hnone : le = none → a = none)
    (hsome : ∀ e, le = some e → (a = none ∨ a = some e) ∧ e = sceneMid l1)
    (segs : List Segment) (pEnd : FreehandPoint) (cusp : List Bool)
    (hok : segmentsFromLineMidToMid le l1 l2 = .ok (segs, pEnd, cusp)) :
    chainedFrom a segs ∧
    (endAnchor a segs = none ∨ endAnchor a segs = some pEnd) ∧
    pEnd = (mapFromDeviceToScene l2.p2).interval (mapFromDeviceToScene l1.p2) (1/2) ∧
    segs.length = cusp.length := by
  by_cases hAl : specAlpha l1 l2 > ALPHAMAX
  · -- cusp dispatch
    rw [midToMid_cusp_eq le l1 l2 hAl] at hok
    rcases le with _ | e
    · simp [segmentsForCusp] at hok
    · obtain ⟨ha, he⟩ := hsome e rfl
      simp only [segmentsForCusp, LineSegment] at hok
      by_cases h1 : e = mapFromDeviceToScene l1.p2
      · rw [if_pos h1] at hok
        by_cases h2 : mapFromDeviceToScene l1.p2 =
            (mapFromDeviceToScene l2.p2).interval (mapFromDeviceToScene l1.p2) (1/2)
        · rw [if_pos h2] at hok
          simp only [Except.ok.injEq, Prod.mk.injEq] at hok
          obtain ⟨hsegs, hpEnd, hcusp⟩ := hok
          subst hsegs hpEnd hcusp
          refine ⟨trivial, ?_, rfl, rfl⟩
          rcases ha with ha | ha
          · exact Or.inl ha
          · exact Or.inr (by rw [endAnchor_nil, ha, h1]; exact congrArg some h2)
        · rw [if_neg h2] at hok
          simp only [Except.ok.injEq, Prod.mk.injEq] at hok
          obtain ⟨hsegs, hpEnd, hcusp⟩ := hok
          subst hsegs hpEnd hcusp
          refine ⟨⟨?_, trivial⟩, Or.inr rfl, rfl, rfl⟩
          intro e' ha'
          rcases ha with ha | ha
          · rw [ha] at ha'; cases ha'
          · rw [ha] at ha'
            cases ha'
            exact h1.symm
      · rw [if_neg h1] at hok
        by_cases h2 : mapFromDeviceToScene l1.p2 =
            (mapFromDeviceToScene l2.p2).interval (mapFromDeviceToScene l1.p2) (1/2)
        · rw [if_pos h2] at hok
          simp only [Except.ok.injEq, Prod.mk.injEq] at hok
          obtain ⟨hsegs, hpEnd, hcusp⟩ := hok
          subst hsegs hpEnd hcusp
          refine ⟨⟨?_, trivial⟩, Or.inr (congrArg some h2), rfl, rfl⟩
          intro e' ha'
          rcases ha with ha | ha
          · rw [ha] at ha'; cases ha'
          · rw [ha] at ha'; cases ha'; rfl
        · rw [if_neg h2] at hok
          simp only [Except.ok.injEq, Prod.mk.injEq] at hok
          obtain ⟨hsegs, hpEnd, hcusp⟩ := hok
          subst hsegs hpEnd hcusp
          refine ⟨⟨?_, ⟨?_, trivial⟩⟩, Or.inr rfl, rfl, rfl⟩
          · intro e' ha'
            rcases ha with ha | ha
            · rw [ha] at ha'; cases ha'
            · rw [ha] at ha'; cases ha'; rfl
          · intro e' ha'
            cases ha'
            rfl
  · -- smooth branch: exactly one cubic
    rw [midToMid_smooth_eq le l1 l2 hAl] at hok
    simp only [Except.ok.injEq, Prod.mk.injEq] at hok
    obtain ⟨hsegs, hpEnd, hcusp⟩ := hok
    subst hsegs hpEnd hcusp
    refine ⟨⟨?_, trivial⟩, Or.inr rfl, rfl, rfl⟩
    intro e' ha'
    rcases le with _ | e
    · rw [hnone rfl] at ha'; cases ha'
    · obtain ⟨ha, he⟩ := hsome e rfl
      rcases ha with ha | ha
      · rw [ha] at ha'; cases ha'
      · rw [ha] at ha'
        cases ha'
        rw [he, sceneMid]

theorem endToEnd_ok_spec (l1 l2 : PathLine)
    (segs : List Segment) (pEnd : FreehandPoint) (cusp : List Bool)
    (hok : segmentsFromLineEndToEnd l1 l2 = .ok (segs, pEnd, cusp)) :
    segs = [⟨mapFromDeviceToScene l1.p2,
            (mapFromDeviceToScene l1.p2).interval (mapFromDeviceToScene l2.p2) (1/2),
            (mapFromDeviceToScene l1.p2).interval (mapFromDeviceToScene l2.p2) (1/2),
            mapFromDeviceToScene l2.p2⟩] ∧
    pEnd = mapFromDeviceToScene l2.p2 ∧ cusp = [true] := by
  simp only [segmentsFromLineEndToEnd, LineSegment] at hok
  by_cases h : mapFromDeviceToScene l1.p2 = mapFromDeviceToScene l2.p2
  · rw [if_pos h] at hok
    cases hok
  · rw [if_neg h] at hok
    simp only [Except.ok.injEq, Prod.mk.injEq] at hok
    obtain ⟨hsegs, hpEnd, hcusp⟩ := hok
    exact ⟨hsegs.symm, hpEnd.symm, hcusp.symm⟩

theorem curveGenStep_spec (cs : CurveGenState) (L : PathLine) (f : Bool)
    (a : Option FreehandPoint) (hinv : CInv cs a) (habut : L.p1 = cs.historyEnd.p2)
    (cs' : CurveGenState) (b : Option Batch)
    (hok : curveGenStep cs L f = .ok (cs', b)) :
    chainedFrom a (batchSegs b) ∧
    CInv cs' (endAnchor a (batchSegs b)) ∧
    cs'.historyEnd.p2 = L.p2 ∧
    (∀ batch ∈ b.toList, batch.segments.length = batch.cuspness.length) := by
  obtain ⟨hinv1, hinv2⟩ := hinv
  cases f with
  | false =>
    -- non-forced: segmentsFromLineMidToMid
    simp only [curveGenStep, Bool.false_eq_true, if_false] at hok
    rcases hmm : segmentsFromLineMidToMid cs.lastEndPointGenerated cs.historyEnd L with e | r
    · rw [hmm] at hok; cases hok
    · obtain ⟨segs, pEnd, cusp⟩ := r
      rw [hmm] at hok
      simp only [Except.ok.injEq, Prod.mk.injEq] at hok
      obtain ⟨hcs', hb⟩ := hok
      obtain ⟨hchain, hanchor, hpEnd, hlen⟩ :=
        midToMid_chain_spec cs.lastEndPointGenerated cs.historyEnd L a hinv1
          (fun e he => hinv2 e he) segs pEnd cusp hmm
      subst hcs' hb
      refine ⟨hchain, ⟨?_, ?_⟩, rfl, ?_⟩
      · intro hnone'; cases hnone'
      · intro e he
        cases he
        refine ⟨hanchor, ?_⟩
        rw [hpEnd, sceneMid]
        show _ = (mapFromDeviceToScene L.p2).interval (mapFromDeviceToScene L.p1) (1/2)
        rw [habut]
      · intro batch hba
        simp only [Option.toList_some, List.mem_singleton] at hba
        subst hba
        exact hlen
  | true =>
    simp only [curveGenStep, if_true] at hok
    by_cases hnull : cs.historyEnd.isNullPathLine = true
    · rw [if_pos hnull] at hok
      by_cases hLnull : L.isNullPathLine = true
      · -- forced null onto flushed history: no-op
        rw [if_pos hLnull] at hok
        simp only [Except.ok.injEq, Prod.mk.injEq] at hok
        obtain ⟨hcs', hb⟩ := hok
        subst hcs' hb
        refine ⟨trivial, ⟨hinv1, hinv2⟩, ?_, by intro batch hba; cases hba⟩
        rw [← habut]
        exact ((isNullPathLine_iff L).mp hLnull).symm
      · -- forced line after flush: end-to-end segment
        rw [if_neg hLnull] at hok
        rcases hee : segmentsFromLineEndToEnd cs.historyEnd L with e | r
        · rw [hee] at hok; cases hok
        · obtain ⟨segs, pEnd, cusp⟩ := r
          rw [hee] at hok
          simp only [Except.ok.injEq, Prod.mk.injEq] at hok
          obtain ⟨hcs', hb⟩ := hok
          obtain ⟨hsegs, hpEnd, hcusp⟩ := endToEnd_ok_spec cs.historyEnd L segs pEnd cusp hee
          subst hcs' hb hsegs hpEnd hcusp
          refine ⟨⟨?_, trivial⟩, ⟨?_, ?_⟩, rfl, ?_⟩
          · intro e' ha'
            rcases hc : cs.lastEndPointGenerated with _ | e0
            · rw [hinv1 hc] at ha'; cases ha'
            · obtain ⟨ha, he⟩ := hinv2 e0 hc
              rcases ha with ha | ha
              · rw [ha] at ha'; cases ha'
              · rw [ha] at ha'
                cases ha'
                rw [he, sceneMid_of_null hnull]
          · intro hnone'; cases hnone'
          · intro e he
            cases he
            refine ⟨Or.inr rfl, ?_⟩
            rw [sceneMid_of_null (by simp [PathLine.nullPathLine, PathLine.isNullPathLine])]
            rfl
          · intro batch hba
            simp only [Option.toList_some, List.mem_singleton] at hba
            subst hba
            rfl
    · -- forced with pending line: mid-to-end
      rw [if_neg hnull] at hok
      rcases hme : segmentsFromLineMidToEnd cs.lastEndPointGenerated cs.historyEnd L with e | r
      · rw [hme] at hok; cases hok
      · obtain ⟨segs, pEnd, cusp⟩ := r
        rw [hme] at hok
        simp only [Except.ok.injEq, Prod.mk.injEq] at hok
        obtain ⟨hcs', hb⟩ := hok
        -- unpack segmentsFromLineMidToEnd
        rcases hmm : segmentsFromLineMidToMid cs.lastEndPointGenerated cs.historyEnd L
            with e2 | mmr
        · unfold segmentsFromLineMidToEnd at hme
          rw [hmm] at hme
          cases hme
        · obtain ⟨segs0, pEnd0, cusp0⟩ := mmr
          unfold segmentsFromLineMidToEnd at hme
          rw [hmm] at hme
          dsimp only at hme
          rcases hls : LineSegment pEnd0 (mapFromDeviceToScene L.p2) with e3 | seg2
          · rw [hls] at hme; cases hme
          · rw [hls] at hme
            simp only [Except.ok.injEq, Prod.mk.injEq] at hme
            obtain ⟨hsegs, hpEnd, hcusp⟩ := hme
            obtain ⟨hchain0, hanchor0, hpEnd0, hlen0⟩ :=
              midToMid_chain_spec cs.lastEndPointGenerated cs.historyEnd L a hinv1
                (fun e he => hinv2 e he) segs0 pEnd0 cusp0 hmm
            have hseg2 : seg2.c0 = pEnd0 ∧ seg2.c3 = mapFromDeviceToScene L.p2 := by
              simp only [LineSegment] at hls
              by_cases hq : pEnd0 = mapFromDeviceToScene L.p2
              · rw [if_pos hq] at hls; cases hls
              · rw [if_neg hq] at hls
                cases hls
                exact ⟨rfl, rfl⟩
            subst hcs' hb hsegs hpEnd hcusp
            refine ⟨?_, ⟨?_, ?_⟩, rfl, ?_⟩
            · refine chainedFrom_append segs0 a [seg2] hchain0 ?_
              refine ⟨?_, trivial⟩
              intro e' ha'
              rcases hanchor0 with hA | hA
              · rw [hA] at ha'; cases ha'
              · rw [hA] at ha'
                cases ha'
                exact hseg2.1
            · intro hnone'; cases hnone'
            · intro e he
              cases he
              refine ⟨?_, ?_⟩
              · show endAnchor a (segs0 ++ [seg2]) = none ∨
                  endAnchor a (segs0 ++ [seg2]) = some (mapFromDeviceToScene L.p2)
                rw [endAnchor_append]
                refine Or.inr ?_
                show some seg2.c3 = _
                rw [hseg2.2]
              · rw [sceneMid_of_null (by simp [PathLine.nullPathLine, PathLine.isNullPathLine])]
                rfl
            · intro batch hba
              simp only [Option.toList_some, List.mem_singleton] at hba
              subst hba
              show (segs0 ++ [seg2]).length = (cusp0 ++ [true]).length
              simp [hlen0]

theorem feedCurve_single_spec (cs : CurveGenState) (a : Option FreehandPoint)
    (hinv : CInv cs a) (L : PathLine) (f : Bool) (habut : L.p1 = cs.historyEnd.p2)
    (cs' : CurveGenState) (bs : List Batch) (err : Option CodeErr)
    (hfc : feedCurve cs [(L, f)] = (cs', bs, err)) :
    chainedFrom a (batchesSegs bs) ∧
    (∀ batch ∈ bs, batch.segments.length = batch.cuspness.length) ∧
    (err = none → CInv cs' (endAnchor a (batchesSegs bs)) ∧ cs'.historyEnd.p2 = L.p2) := by
  rcases hstep : curveGenStep cs L f with e | r
  · simp only [feedCurve, hstep, Prod.mk.injEq] at hfc
    obtain ⟨h1, h2, h3⟩ := hfc
    subst h1 h2 h3
    refine ⟨?_, ?_, ?_⟩
    · exact trivial
    · intro batch hba
      exact absurd hba (List.not_mem_nil batch)
    · intro h
      exact absurd h (Option.some_ne_none e)
  · obtain ⟨cs2, b⟩ := r
    simp only [feedCurve, hstep, Prod.mk.injEq] at hfc
    obtain ⟨h1, h2, h3⟩ := hfc
    subst h1 h2 h3
    obtain ⟨hchain, hcinv, hp2, hlen⟩ := curveGenStep_spec cs L f a hinv habut cs2 b hstep
    have hbs : batchesSegs (b.toList ++ []) = batchSegs b := by
      cases b with
      | none => rfl
      | some batch =>
        show batchesSegs [batch] = batch.segments
        simp [batchesSegs]
    rw [hbs]
    refine ⟨hchain, ?_, fun _ => ⟨hcinv, hp2⟩⟩
    intro batch hba
    rw [List.append_nil] at hba
    exact hlen batch hba

theorem lineGenStep_cases (ls : LineGenState) (turn : PointerPoint) (f : Bool) :
    ((lineGenStep ls turn f).2 = [] ∧
     (lineGenStep ls turn f).1.turnHistory.start = ls.turnHistory.start) ∨
    (∃ line f', (lineGenStep ls turn f).2 = [(line, f')] ∧
      line.p1 = ls.turnHistory.start ∧
      (lineGenStep ls turn f).1.turnHistory.start = line.p2) := by
  cases f with
  | true =>
    simp only [lineGenStep, if_true]
    by_cases hc : ls.turnHistory.start = turn
    · rw [if_pos hc]
      exact Or.inr ⟨PathLine.nullPathLine turn, true, rfl, hc.symm, rfl⟩
    · rw [if_neg hc]
      exact Or.inr ⟨⟨ls.turnHistory.start, turn⟩, true, rfl, rfl, rfl⟩
  | false =>
    simp only [lineGenStep, Bool.false_eq_true, if_false]
    by_cases hv : ls.constraints.isViolatedBy (turn - ls.turnHistory.start) = true
    · rw [if_pos hv]
      exact Or.inr ⟨⟨ls.turnHistory.start, ls.turnHistory.«end»⟩, false, rfl, rfl, rfl⟩
    · rw [if_neg hv]
      exact Or.inl ⟨rfl, rfl⟩

theorem flushLineGenerator_cases (ls : LineGenState) :
    ∃ line, flushLineGenerator ls = [(line, true)] ∧ line.p1 = ls.turnHistory.start := by
  by_cases hc : ls.turnHistory.isCollapsed = true
  · refine ⟨PathLine.nullPathLine ls.turnHistory.«end», ?_, ?_⟩
    · simp [flushLineGenerator, sendForcedLine, hc]
    · exact ((isCollapsed_iff ls.turnHistory).mp hc).symm
  · refine ⟨⟨ls.turnHistory.start, ls.turnHistory.«end»⟩, ?_, rfl⟩
    simp [flushLineGenerator, sendForcedLine, hc]

theorem sendTurnToLine_spec (s : PipelineState) (a : Option FreehandPoint)
    (hinv : PInv s a) (turn : PointerPoint) (f : Bool)
    (s' : PipelineState) (bs : List Batch) (err : Option CodeErr)
    (hst : sendTurnToLine s turn f = (s', bs, err)) :
    chainedFrom a (batchesSegs bs) ∧
    (∀ batch ∈ bs, batch.segments.length = batch.cuspness.length) ∧
    (err = none → PInv s' (endAnchor a (batchesSegs bs))) := by
  obtain ⟨hcinv, hstart⟩ := hinv
  rcases hlg : lineGenStep s.lineGen turn f with ⟨ls2, lines⟩
  unfold sendTurnToLine at hst
  rw [hlg] at hst
  rcases lineGenStep_cases s.lineGen turn f with ⟨hout, hs⟩ | ⟨line, f', hout, hp1, hs⟩
  · rw [hlg] at hout hs
    dsimp only at hout hs hst
    subst hout
    simp only [feedCurve, Prod.mk.injEq] at hst
    obtain ⟨h1, h2, h3⟩ := hst
    subst h1 h2 h3
    refine ⟨?_, ?_, ?_⟩
    · exact trivial
    · intro batch hba
      exact absurd hba (List.not_mem_nil batch)
    · intro _
      refine ⟨hcinv, ?_⟩
      show s.curveGen.historyEnd.p2 = ls2.turnHistory.start
      rw [hs]
      exact hstart
  · rw [hlg] at hout hs
    dsimp only at hout hs hst
    subst hout
    rcases hfc : feedCurve s.curveGen [(line, f')] with ⟨cs', bs2, err2⟩
    rw [hfc] at hst
    simp only [Prod.mk.injEq] at hst
    obtain ⟨h1, h2, h3⟩ := hst
    subst h1 h2 h3
    obtain ⟨hchain, hlen, hpost⟩ :=
      feedCurve_single_spec s.curveGen a hcinv line f' (by rw [hp1, ← hstart]) cs' bs2 err2 hfc
    refine ⟨hchain, hlen, fun herr => ?_⟩
    obtain ⟨hcinv', hp2⟩ := hpost herr
    refine ⟨hcinv', ?_⟩
    show cs'.historyEnd.p2 = ls2.turnHistory.start
    rw [hs, hp2]

theorem samplePipeline_spec (s : PipelineState) (a : Option FreehandPoint)
    (hinv : PInv s a) (position : PointerPoint) (elapsed : Nat)
    (s' : PipelineState) (bs : List Batch) (err : Option CodeErr)
    (hsp : samplePipeline s position elapsed = (s', bs, err)) :
    chainedFrom a (batchesSegs bs) ∧
    (∀ batch ∈ bs, batch.segments.length = batch.cuspness.length) ∧
    (err = none → PInv s' (endAnchor a (batchesSegs bs))) := by
  unfold samplePipeline at hsp
  rcases hte : turnGenEmission s.turnGen position elapsed with e | r
  · rw [hte] at hsp
    simp only [Prod.mk.injEq] at hsp
    obtain ⟨h1, h2, h3⟩ := hsp
    subst h1 h2 h3
    refine ⟨trivial, ?_, ?_⟩
    · intro batch hba
      exact absurd hba (List.not_mem_nil batch)
    · intro h
      exact absurd h (Option.some_ne_none e)
  · obtain ⟨t0, d'⟩ := r
    rw [hte] at hsp
    cases t0 with
    | none =>
      simp only [Prod.mk.injEq] at hsp
      obtain ⟨h1, h2, h3⟩ := hsp
      subst h1 h2 h3
      refine ⟨trivial, ?_, ?_⟩
      · intro batch hba
        exact absurd hba (List.not_mem_nil batch)
      · intro _
        exact hinv
    | some te =>
      obtain ⟨turn, elapsed'⟩ := te
      dsimp only at hsp
      exact sendTurnToLine_spec
        { turnGen := { history := History.collapse position, reversalDetector := d' },
          lineGen := s.lineGen, curveGen := s.curveGen }
        a ⟨hinv.1, hinv.2⟩ turn (pythonTruthy elapsed') s' bs err hsp

theorem runSamples_spec (samples : List (PointerPoint × Nat)) :
    ∀ (s : PipelineState) (a : Option FreehandPoint), PInv s a →
      ∀ s' bs err, runSamples s samples = (s', bs, err) →
        chainedFrom a (batchesSegs bs) ∧
        (∀ batch ∈ bs, batch.segments.length = batch.cuspness.length) ∧
        (err = none → PInv s' (endAnchor a (batchesSegs bs))) := by
  induction samples with
  | nil =>
    intro s a hinv s' bs err hrs
    simp only [runSamples, Prod.mk.injEq] at hrs
    obtain ⟨h1, h2, h3⟩ := hrs
    subst h1 h2 h3
    refine ⟨trivial, ?_, fun _ => hinv⟩
    intro batch hba
    exact absurd hba (List.not_mem_nil batch)
  | cons pt rest ih =>
    intro s a hinv s' bs err hrs
    obtain ⟨p, t⟩ := pt
    unfold runSamples at hrs
    rcases hsp : samplePipeline s p t with ⟨s1, bs1, err1⟩
    rw [hsp] at hrs
    obtain ⟨hchain1, hlen1, hpost1⟩ := samplePipeline_spec s a hinv p t s1 bs1 err1 hsp
    cases err1 with
    | some e =>
      dsimp only at hrs
      simp only [Prod.mk.injEq] at hrs
      obtain ⟨h1, h2, h3⟩ := hrs
      subst h1 h2 h3
      exact ⟨hchain1, hlen1, fun h => absurd h (Option.some_ne_none e)⟩
    | none =>
      dsimp only at hrs
      rcases hrs2 : runSamples s1 rest with ⟨s2, bs2, err2⟩
      rw [hrs2] at hrs
      dsimp only at hrs
      simp only [Prod.mk.injEq] at hrs
      obtain ⟨h1, h2, h3⟩ := hrs
      subst h1 h2 h3
      obtain ⟨hchain2, hlen2, hpost2⟩ :=
        ih s1 (endAnchor a (batchesSegs bs1)) (hpost1 rfl) s2 bs2 err2 hrs2
      rw [batchesSegs_append]
      refine ⟨?_, ?_, ?_⟩
      · exact chainedFrom_append _ a _ hchain1 hchain2
      · intro batch hba
        rcases List.mem_append.mp hba with hba | hba
        · exact hlen1 batch hba
        · exact hlen2 batch hba
      · intro herr
        rw [endAnchor_append]
        exact hpost2 herr

theorem closePipeline_spec (s : PipelineState) (a : Option FreehandPoint)
    (hinv : PInv s a)
    (bs : List Batch) (err : Option CodeErr)
    (hcp : closePipeline s = (bs, err)) :
    chainedFrom a (batchesSegs bs) ∧
    (∀ batch ∈ bs, batch.segments.length = batch.cuspness.length) := by
  unfold closePipeline at hcp
  rcases hft : flushTurnGenerator s with ⟨s1, bs1, err1⟩
  rw [hft] at hcp
  have hstep1 : chainedFrom a (batchesSegs bs1) ∧
      (∀ batch ∈ bs1, batch.segments.length = batch.cuspness.length) ∧
      (err1 = none → PInv s1 (endAnchor a (batchesSegs bs1))) := by
    unfold flushTurnGenerator at hft
    by_cases hc : s.turnGen.history.isCollapsed = true
    · rw [if_neg (by simp [hc])] at hft
      simp only [Prod.mk.injEq] at hft
      obtain ⟨h1, h2, h3⟩ := hft
      subst h1 h2 h3
      refine ⟨trivial, ?_, fun _ => hinv⟩
      intro batch hba
      exact absurd hba (List.not_mem_nil batch)
    · rw [if_pos (by simp [hc])] at hft
      exact sendTurnToLine_spec s a hinv s.turnGen.history.«end» (pythonTruthy 0) s1 bs1 err1 hft
  obtain ⟨hchain1, hlen1, hpost1⟩ := hstep1
  cases err1 with
  | some e =>
    dsimp only at hcp
    simp only [Prod.mk.injEq] at hcp
    obtain ⟨h1, h2⟩ := hcp
    subst h1 h2
    exact ⟨hchain1, hlen1⟩
  | none =>
    dsimp only at hcp
    obtain ⟨hcinv1, hstart1⟩ := hpost1 rfl
    obtain ⟨line, hfl, hp1⟩ := flushLineGenerator_cases s1.lineGen
    rw [hfl] at hcp
    rcases hfc : feedCurve s1.curveGen [(line, true)] with ⟨cs2, bs2, err2⟩
    rw [hfc] at hcp
    obtain ⟨hchain2, hlen2, _⟩ :=
      feedCurve_single_spec s1.curveGen (endAnchor a (batchesSegs bs1)) hcinv1 line true
        (by rw [hp1, ← hstart1]) cs2 bs2 err2 hfc
    have hfinal : bs = bs1 ++ bs2 := by
      cases err2 with
      | some e =>
        dsimp only at hcp
        simp only [Prod.mk.injEq] at hcp
        exact hcp.1.symm
      | none =>
        dsimp only at hcp
        rcases hfg : flushCurveGenerator cs2 with e | u
        · rw [hfg] at hcp
          simp only [Prod.mk.injEq] at hcp
          exact hcp.1.symm
        · rw [hfg] at hcp
          simp only [Prod.mk.injEq] at hcp
          exact hcp.1.symm
    subst hfinal
    rw [batchesSegs_append]
    refine ⟨chainedFrom_append _ a _ hchain1 hchain2, ?_⟩
    intro batch hba
    rcases List.mem_append.mp hba with hba | hba
    · exact hlen1 batch hba
    · exact hlen2 batch hba

theorem strokeBatches_spec (start : PointerPoint) (samples : List (PointerPoint × Nat)) :
    chainedFrom none (batchesSegs (strokeBatches start samples)) ∧
    ∀ b ∈ strokeBatches start samples, b.segments.length = b.cuspness.length := by
  have hinv0 : PInv (initPipeline start) none := by
    refine ⟨⟨fun _ => rfl, fun e he => ?_⟩, rfl⟩
    cases he
  unfold strokeBatches runStroke
  rcases hrs : runSamples (initPipeline start) samples with ⟨s1, bs1, err1⟩
  obtain ⟨hchain1, hlen1, hpost1⟩ :=
    runSamples_spec samples (initPipeline start) none hinv0 s1 bs1 err1 hrs
  cases err1 with
  | some e =>
    dsimp only
    exact ⟨hchain1, hlen1⟩
  | none =>
    dsimp only
    rcases hcp : closePipeline s1 with ⟨bs2, err2⟩
    obtain ⟨hchain2, hlen2⟩ := closePipeline_spec s1 _ (hpost1 rfl) bs2 err2 hcp
    dsimp only
    rw [batchesSegs_append]
    refine ⟨chainedFrom_append _ none _ hchain1 hchain2, ?_⟩
    intro b hb
    rcases List.mem_append.mp hb with hb | hb
    · exact hlen1 b hb
    · exact hlen2 b hb

/-- C2: for every stroke (any start position and any sequence of pointer
samples with any elapsed times, followed by closing the pipe), the segments
the pipeline emits are contiguous: each emitted Segment's start anchor
equals the previous emitted Segment's end anchor. -/
theorem emittedSegments_contiguous (start : PointerPoint)
    (samples : List (PointerPoint × Nat)) :
    List.Chain' (fun s t => t.c0 = s.c3) (strokeSegments start samples) := by
  have h := (strokeBatches_spec start samples).1
  have heq : strokeSegments start samples = batchesSegs (strokeBatches start samples) := rfl
  rw [heq]
  exact chain'_of_chainedFrom _ none h

/-- C8: every batch the pipeline ever passes to the sink — including cusp
batches in which a degenerate candidate segment was omitted after a
FreehandNullSegmentError — has segments and cuspness lists of equal
length. -/
theorem emittedBatch_lengths_equal (start : PointerPoint)
    (samples : List (PointerPoint × Nat)) (b : Batch)
    (hb : b ∈ strokeBatches start samples) :
    b.segments.length = b.cuspness.length :=
  (strokeBatches_spec start samples).2 b hb

/-- Witness for emittedBatch_lengths_equal at the straight-stroke scenario's
single emitted batch. -/
theorem emittedBatch_lengths_equal_witness :
    (⟨[⟨⟨0, 0⟩, ⟨5, 0⟩, ⟨5, 0⟩, ⟨10, 0⟩⟩], [true]⟩ : Batch) ∈
      strokeBatches ⟨0, 0⟩ [(⟨0, 0⟩, 1), (⟨5, 0⟩, 2), (⟨10, 0⟩, 3)] ∧
    (⟨[⟨⟨0, 0⟩, ⟨5, 0⟩, ⟨5, 0⟩, ⟨10, 0⟩⟩], [true]⟩ : Batch).segments.length =
      (⟨[⟨⟨0, 0⟩, ⟨5, 0⟩, ⟨5, 0⟩, ⟨10, 0⟩⟩], [true]⟩ : Batch).cuspness.length := by
  have hb : (⟨[⟨⟨0, 0⟩, ⟨5, 0⟩, ⟨5, 0⟩, ⟨10, 0⟩⟩], [true]⟩ : Batch) ∈
      strokeBatches ⟨0, 0⟩ [(⟨0, 0⟩, 1), (⟨5, 0⟩, 2), (⟨10, 0⟩, 3)] := by
    rw [show strokeBatches ⟨0, 0⟩ [(⟨0, 0⟩, 1), (⟨5, 0⟩, 2), (⟨10, 0⟩, 3)] =
      [⟨[⟨⟨0, 0⟩, ⟨5, 0⟩, ⟨5, 0⟩, ⟨10, 0⟩⟩], [true]⟩] from rfl]
    exact List.mem_singleton.mpr rfl
  exact ⟨hb, emittedBatch_lengths_equal ⟨0, 0⟩
    [(⟨0, 0⟩, 1), (⟨5, 0⟩, 2), (⟨10, 0⟩, 3)] _ hb⟩
